import Mathlib

/-!
Shallow embedding of the `dnssweeper-cli` hook scripts
(`src/scripts/claude-hooks/*.py` and `src/scripts/security/chmod_guardian/hooks/*.py`)
together with the spec's evolution-core functions, and proofs settling the
frozen claims about them.

Conventions used throughout the embedding:
- JSON files on disk are modelled by `FState α`: the file may be missing,
  may hold content that `json.load` fails to parse, or parses to a typed value.
- Python timestamps (`datetime.now()`, ISO strings) are modelled as integer
  seconds; `timedelta(hours=h)` is `h * 3600`.
- Machine floats in the scripts are only ever timestamps or identifiers; the
  spec-modelled evolution core uses exact rationals (`ℚ`).
- `print(..., file=sys.stderr)` calls are pure console output and are not
  modelled; no claim concerns them.
-/

/-- Result of a JSON file load attempt: the file may be absent, present but
unparsable (`json.load` raises), or parsed to a typed value. -/
inductive FState (α : Type) where
  | missing : FState α
  | malformed : FState α
  | parsed : α → FState α
deriving DecidableEq

/-- Python list slicing `l[-n:]`: the most recent `n` elements of `l`
(`l` itself when it is shorter than `n`). -/
def pyTail {α : Type} (n : Nat) (l : List α) : List α := l.drop (l.length - n)

/-- `needle` begins the list `hay` (character-level model of `str.starts...`). -/
def beginsWith : List Char → List Char → Bool
  | [], _ => true
  | _ :: _, [] => false
  | a :: as, b :: bs => a == b && beginsWith as bs

/-- Python substring test `needle in hay` on character lists. -/
def containsSub (needle : List Char) : List Char → Bool
  | [] => needle.isEmpty
  | c :: rest => beginsWith needle (c :: rest) || containsSub needle rest

/-- Characters of a string, lower-cased (model of Python `str.lower()`;
all cased characters appearing in the scripts are ASCII). -/
def lowerChars (s : String) : List Char := s.data.map Char.toLower

/-- Case-insensitive substring test `needle.lower() in hay.lower()`. -/
def occursIn (needle hay : String) : Bool := containsSub (lowerChars needle) (lowerChars hay)

/-- Case-sensitive Python substring test `needle in hay` on strings. -/
def strContains (hay needle : String) : Bool := containsSub needle.data hay.data

/-- How a Python hook process ends: a normal `sys.exit`/fall-off-the-end with an
exit code, or an uncaught exception terminating it abnormally. -/
inductive MainResult where
  | exited : Nat → MainResult
  | crashed : String → MainResult
deriving DecidableEq

/-- A hook's `tool_response` payload: a dict (with optional `output`, `stdout`,
`stderr` keys), or a plain string. -/
inductive ToolResponse where
  | rdict (output stdoutv stderrv : Option String)
  | rstr (s : String)
deriving DecidableEq

namespace ChmodGuardian

/-- Security policy document (`dnsweeper_policy.json`); the nested dicts are
modelled as association lists. -/
structure Policy where
  project_name : String := ""
  directories : List (String × String) := []
  files : List (String × String) := []
  patterns : List (String × String) := []
deriving DecidableEq

/-- `get_default_policy` of `chmod_guardian.py`: the built-in DNSweeper policy. -/
def get_default_policy : Policy :=
  { project_name := "DNSweeper",
    directories := [("default", "755"), ("src", "755"), ("dist", "755"),
      ("node_modules", "755"), ("private", "700")],
    files := [("default", "644"), ("scripts", "755"), ("typescript", "644"),
      ("javascript", "644"), ("env", "400")],
    patterns := [("\\.sh$", "755"), ("\\.ts$", "644"), ("\\.js$", "644"),
      ("\\.json$", "644"), ("\\.env", "400")] }

/-- `load_policy` of `chmod_guardian.py`. The `except` clause catches only
`FileNotFoundError` (returning the default policy); a present file whose
content `json.load` cannot parse raises `json.JSONDecodeError`, which
propagates to the caller. -/
def load_policy (policyFile : FState Policy) : Except String Policy :=
  match policyFile with
  | FState.missing => Except.ok get_default_policy
  | FState.malformed => Except.error "JSONDecodeError"
  | FState.parsed p => Except.ok p

/-- The per-path record stored under `paths_info[path]` by `chmod_guardian.py`
(`before` is the full permission dict; only its `octal` field is consulted by
the other scripts, so only that field is modelled). -/
structure PathInfo where
  before_octal : String := ""
  recommended : String := ""
  category : String := ""
  command_type : String := ""
deriving DecidableEq

/-- A change record appended to a history entry by `permission_tracker.py`. -/
structure ChangeRec where
  path : String
  before : String
  after : String
  recommended : String
  category : String
deriving DecidableEq

/-- One entry of the persisted chmod history (`chmod_history.json`).
`afterPerms = none` models the `after_perms` key being absent (it is added
later by `permission_tracker.py`); when present it maps each path to the
`octal` field of the recorded permissions. -/
structure ChmodEntry where
  id : Int := 0
  timestamp : Int := 0
  command : String := ""
  project : String := ""
  paths : List (String × PathInfo) := []
  restored : Bool := false
  afterPerms : Option (List (String × String)) := none
  changes : Option (List ChangeRec) := none
deriving DecidableEq

/-- `log_chmod_action` of `chmod_guardian.py`, as a function from the current
on-disk history file to the content written back: the parsed history (reset to
`[]` when the file is missing or unparsable, via the bare `except`), with the
new entry appended, truncated to the most recent 200 entries
(`history[-200:]`).  The Python function returns `entry['id']`; here the new
file content is returned instead, since that is what the claims concern. -/
def log_chmod_action (logFile : FState (List ChmodEntry)) (entry : ChmodEntry) :
    List ChmodEntry :=
  let history := match logFile with
    | FState.missing => []
    | FState.malformed => []
    | FState.parsed h => h
  pyTail 200 (history ++ [entry])

end ChmodGuardian

namespace ApprovalAvoider

/-- `DEFAULT_ALTERNATIVES` of `approval_avoider.py`: regex pattern strings
mapped to a replacement command template (`none` marks a blocked command). -/
def DEFAULT_ALTERNATIVES : List (String × Option String) :=
  [("^chmod \\+x (.+\\.js)$", some "node {1}"),
   ("^chmod \\+x (.+\\.sh)$", some "bash {1}"),
   ("^chmod \\+x (.+\\.py)$", some "python3 {1}"),
   ("^chmod \\+x (.+)$", some "echo \"実行権限が必要: {1}\" && ls -la {1}"),
   ("^npm install$", some "npm ci"),
   ("^npm install (.+)$", some "npm ci && npm install {1}"),
   ("^yarn install$", some "yarn install --frozen-lockfile"),
   ("^npm test$", some "npm run test"),
   ("^CI=true npm test$", some "npm run test:ci || npm test"),
   ("^sudo apt-get install (.+)$", some "echo \"⚠️ apt-get install {1} は手動実行が必要\""),
   ("^sudo apt install (.+)$", some "echo \"⚠️ apt install {1} は手動実行が必要\""),
   ("^sudo (.+)$", some "echo \"⚠️ sudo {1} は手動実行が必要\""),
   ("^rm -rf /$", none),
   ("^sudo rm -rf", none),
   (":()\x7b :|:& \x7d;:", none)]

/-- The `security` entry of the configuration (`security_config.json`). -/
structure SecurityConfig where
  mode : String := "balanced"
  whitelist : List String := []
  blacklist : List String := []
deriving DecidableEq

/-- The combined configuration assembled by `load_config`. -/
structure Configs where
  alternatives : List (String × Option String)
  security : SecurityConfig
deriving DecidableEq

/-- `load_config` of `approval_avoider.py`.  `envMode` models
`os.environ.get('DZA_SECURITY_MODE', 'balanced')`.  For the alternatives file:
a missing file keeps the defaults; an unparsable file keeps the defaults (the
`except` clause rewrites the file with `DEFAULT_ALTERNATIVES`, a write the
returned value does not depend on); a parsed file replaces them.  The security
config falls back to its default dict on a missing or unparsable file. -/
def load_config (altFile : FState (List (String × Option String)))
    (secFile : FState SecurityConfig) (envMode : Option String) : Configs :=
  let alts := match altFile with
    | FState.parsed a => a
    | _ => DEFAULT_ALTERNATIVES
  let sec := match secFile with
    | FState.parsed s => s
    | _ => { mode := envMode.getD "balanced", whitelist := [], blacklist := [] }
  { alternatives := alts, security := sec }

/-- One item of the approval queue (`approval_queue.json`); `context` models
the structured context dict as an association list. -/
structure QueueItem where
  id : Int := 0
  command : String := ""
  timestamp : Int := 0
  context : List (String × String) := []
  status : String := ""
deriving DecidableEq

/-- `add_to_queue` of `approval_avoider.py`, as a function from the current
queue file to the queue content after the call: the parsed queue (reset to
`[]` when missing or unparsable), with a fresh `pending` item appended unless
some existing item already has the same command string and status `pending`
(in which case the file is left untouched). -/
def add_to_queue (queueFile : FState (List QueueItem)) (command : String)
    (context : List (String × String)) (nowId nowIso : Int) : List QueueItem :=
  let queue := match queueFile with
    | FState.missing => []
    | FState.malformed => []
    | FState.parsed q => q
  let item : QueueItem :=
    { id := nowId, command := command, timestamp := nowIso,
      context := context, status := "pending" }
  if queue.any (fun q => q.command == command && q.status == "pending") then queue
  else queue ++ [item]

/-- The duplicate-freedom invariant of the approval queue: no two distinct
positions both hold a `pending` item with the same command string. -/
def PendingUnique (queue : List QueueItem) : Prop :=
  queue.Pairwise (fun a b =>
    ¬(a.status = "pending" ∧ b.status = "pending" ∧ a.command = b.command))

end ApprovalAvoider

namespace TaskSwitcher

/-- `get_pending_tasks` of `task_switcher.py`: `[]` when the queue file is
missing, `[]` when `json.load` raises (bare `except`), otherwise the items
whose `status` is `pending`. -/
def get_pending_tasks (queueFile : FState (List ApprovalAvoider.QueueItem)) :
    List ApprovalAvoider.QueueItem :=
  match queueFile with
  | FState.missing => []
  | FState.malformed => []
  | FState.parsed queue => queue.filter (fun t => t.status == "pending")

end TaskSwitcher

namespace DetectFrozen

/-- `APPROVAL_PATTERNS` of `detect_frozen.py`: the fixed catalogue of approval
prompt fragments. -/
def APPROVAL_PATTERNS : List String :=
  ["Do you want to proceed?",
   "Bash command",
   "Yes, and don't ask again",
   "❯ 1. Yes",
   "❯ 2. Yes",
   "❯ 3. No",
   "╭─",
   "│ Bash command",
   "chmod +x",
   "Are you sure",
   "Continue?",
   "Y/n",
   "[Y/n]",
   "password:",
   "Password:",
   "sudo password",
   "npm test",
   "CI=true"]

/-- `detect_approval_prompt` of `detect_frozen.py`.  `none` models Python
`None`; `if not output` rejects both `None` and the empty string.  Otherwise
the result is whether at least two catalogue patterns occur, case
insensitively, as substrings of the output. -/
def detect_approval_prompt (output : Option String) : Bool :=
  match output with
  | none => false
  | some s =>
    if s = "" then false
    else decide (2 ≤ APPROVAL_PATTERNS.countP (fun p => occursIn p s))

/-- The task info record appended to `frozen_tasks.log`. -/
structure TaskInfo where
  timestamp : Int
  tool_input : String
  output_preview : String
  status : String
  detected_patterns : List String
deriving DecidableEq

/-- Content of `current_state.json`: the two keys the script writes plus the
remaining keys of the dict, preserved as `extra`. -/
structure StatusDoc where
  last_check : Int := 0
  frozen : Bool := false
  extra : List (String × String) := []
deriving DecidableEq

/-- The files `detect_frozen.py` touches. -/
structure FrozenWorld where
  frozenLog : List TaskInfo
  statusFile : FState StatusDoc

/-- The hook input after `json.load`. -/
structure FrozenInput where
  tool_response : ToolResponse
  tool_input : String
deriving DecidableEq

/-- Output extraction in `detect_frozen.main`: for a dict response,
`get('output', get('stdout', ''))` with `'\n' + stderr` appended; a string
response is used as is. -/
def frozen_extract (tr : ToolResponse) : String :=
  match tr with
  | ToolResponse.rdict o so se => (o.getD (so.getD "")) ++ "\n" ++ se.getD ""
  | ToolResponse.rstr s => s

/-- `update_status` of `detect_frozen.py`: rereads `current_state.json`
(falling back to the empty dict on a missing or unparsable file — the inner
`try` swallows read errors), overwrites `last_check` and `frozen`, and writes
the file back.  `fault f = true` models the write to file `f` raising an
`OSError`, which this function does not catch. -/
def update_status (fault : String → Bool) (frozen : Bool) (now : Int)
    (w : FrozenWorld) : Except String FrozenWorld :=
  let prevExtra := match w.statusFile with
    | FState.parsed st => st.extra
    | _ => []
  let newDoc : StatusDoc := { last_check := now, frozen := frozen, extra := prevExtra }
  if fault "current_state.json" then Except.error "OSError"
  else Except.ok { w with statusFile := FState.parsed newDoc }

/-- The body of `detect_frozen.main` after the hook input has been parsed:
extract the output, and either record a frozen task (appending the task info
to `frozen_tasks.log`, which may raise) and mark the status frozen, or just
refresh the status. -/
def detect_frozen_body (fault : String → Bool) (now : Int) (inp : FrozenInput)
    (w : FrozenWorld) : Except String FrozenWorld :=
  let output := frozen_extract inp.tool_response
  if detect_approval_prompt (some output) then
    let ti : TaskInfo :=
      { timestamp := now, tool_input := inp.tool_input,
        output_preview := String.mk (output.data.take 500), status := "frozen",
        detected_patterns := APPROVAL_PATTERNS.filter (fun p => occursIn p output) }
    if fault "frozen_tasks.log" then Except.error "OSError"
    else update_status fault true now { w with frozenLog := w.frozenLog ++ [ti] }
  else update_status fault false now w

/-- `main` of `detect_frozen.py`: the whole body — `json.load(sys.stdin)`
(whose failure is the `Except.error` case of `stdin`) and all processing —
runs inside `try`; `except Exception` prints a warning and falls through, so
the process always exits normally with code 0. -/
def detect_frozen_main (fault : String → Bool) (now : Int)
    (stdin : Except String FrozenInput) (w : FrozenWorld) : MainResult :=
  match (do detect_frozen_body fault now (← stdin) w : Except String FrozenWorld) with
  | Except.ok _ => MainResult.exited 0
  | Except.error _ => MainResult.exited 0

end DetectFrozen

namespace DzaMonitor

/-- One entry of `PATTERN_ACTIONS` in `dza_intelligent_monitor.py`.
`keywords` lists the alternation branches of the regex key; since every
pattern is searched with `re.IGNORECASE`, a pattern matches exactly when one
of its (lower-cased) branches occurs in the output. -/
structure PatternInfo where
  keywords : List String
  mode : String
  actions : List String
  emoji : String
deriving DecidableEq

/-- `PATTERN_ACTIONS` of `dza_intelligent_monitor.py`, in dict insertion
order. -/
def PATTERN_ACTIONS : List PatternInfo :=
  [⟨["error", "failed"], "error_recovery",
    ["エラー分析", "自動修正試行", "代替タスク提案"], "🚨"⟩,
   ⟨["success", "passed", "completed"], "next_task",
    ["次のタスク選択", "進捗記録", "品質チェック"], "✅"⟩,
   ⟨["test", "jest", "mocha", "pytest"], "testing",
    ["テスト実行", "カバレッジ分析", "テスト最適化"], "🧪"⟩,
   ⟨["build", "compile", "webpack"], "building",
    ["ビルド最適化", "依存関係チェック", "キャッシュ活用"], "🔨"⟩,
   ⟨["permission", "chmod", "sudo", "install"], "approval_handling",
    ["代替コマンド検索", "キュー追加", "手動実行案内"], "🔐"⟩]

/-- `analyze_output` of `dza_intelligent_monitor.py`: `None` for empty output,
otherwise the first matching pattern entry (`detected[0]`). -/
def analyze_output (output : String) : Option PatternInfo :=
  if output = "" then none
  else PATTERN_ACTIONS.find? (fun pa => pa.keywords.any (fun kw => occursIn kw output))

/-- `suggest_next_action` of `dza_intelligent_monitor.py`. -/
def suggest_next_action (pinfo : Option PatternInfo) (hour : Nat) : List String :=
  let base : List String :=
    if 22 ≤ hour ∨ hour ≤ 6 then ["低リスクタスクに切り替え"]
    else if 10 ≤ hour ∧ hour ≤ 17 then ["承認不要タスクを優先"]
    else []
  match pinfo with
  | some pi => base ++ pi.actions.take 2
  | none => base

/-- The `last_analysis` record written into `current_state.json`. -/
structure AnalysisRec where
  timestamp : Int
  mode : String
  suggestions : List String
deriving DecidableEq

/-- Content of `current_state.json` as this script sees it. -/
structure StateDoc where
  last_analysis : Option AnalysisRec := none
  extra : List (String × String) := []
deriving DecidableEq

/-- The single file `dza_intelligent_monitor.py` writes. -/
structure MonitorWorld where
  stateFile : FState StateDoc

/-- `update_state` of `dza_intelligent_monitor.py`: reread the state file
(empty dict on missing/unparsable content), set `last_analysis`, write back
(the write may raise, uncaught here). -/
def update_state (fault : String → Bool) (now : Int) (analysis : Option PatternInfo)
    (w : MonitorWorld) : Except String MonitorWorld :=
  let prevExtra := match w.stateFile with
    | FState.parsed st => st.extra
    | _ => []
  let rec0 : AnalysisRec :=
    { timestamp := now,
      mode := (analysis.map (fun a => a.mode)).getD "normal",
      suggestions := (analysis.map (fun a => a.actions)).getD [] }
  let newDoc : StateDoc := { last_analysis := some rec0, extra := prevExtra }
  if fault "current_state.json" then Except.error "OSError"
  else Except.ok { stateFile := FState.parsed newDoc }

/-- The hook input to the monitor after `json.load`. -/
structure MonitorInput where
  tool_response : ToolResponse
deriving DecidableEq

/-- Output extraction in `dza_intelligent_monitor.main`: dict responses use
`get('output', get('stdout', ''))`; anything else is `str(tool_response)`. -/
def monitor_extract (tr : ToolResponse) : String :=
  match tr with
  | ToolResponse.rdict o so _ => o.getD (so.getD "")
  | ToolResponse.rstr s => s

/-- The body of `dza_intelligent_monitor.main` after parsing: analyze the
output, compute suggestions (printed for significant modes; console output is
not modelled), and update the state file. -/
def dza_monitor_body (fault : String → Bool) (now : Int) (hour : Nat)
    (inp : MonitorInput) (w : MonitorWorld) : Except String MonitorWorld :=
  let output := monitor_extract inp.tool_response
  let analysis := analyze_output output
  let _printed := match analysis with
    | some pi => suggest_next_action (some pi) hour
    | none => []
  update_state fault now analysis w

/-- `main` of `dza_intelligent_monitor.py`: everything runs inside `try`;
`except Exception: pass` makes every run exit normally with code 0. -/
def dza_monitor_main (fault : String → Bool) (now : Int) (hour : Nat)
    (stdin : Except String MonitorInput) (w : MonitorWorld) : MainResult :=
  match (do dza_monitor_body fault now hour (← stdin) w : Except String MonitorWorld) with
  | Except.ok _ => MainResult.exited 0
  | Except.error _ => MainResult.exited 0

end DzaMonitor

namespace PermissionTracker

open ChmodGuardian

/-- Content of the handoff file `current_chmod.json` written by
`chmod_guardian.py`. -/
structure TempData where
  log_id : Int
  command : String
  paths_info : List (String × PathInfo)
deriving DecidableEq

/-- Content of `last_activity.json`. -/
structure ActivityDoc where
  timestamp : Int
  type : String
  project : String
deriving DecidableEq

/-- The files and filesystem view `permission_tracker.py` works with.
`perms path` is the current octal permission string of `path` (`none` when
the path does not exist); it backs both `os.path.exists` and
`get_current_permissions`. -/
structure TrackerWorld where
  tempFile : FState TempData
  chmodLog : FState (List ChmodEntry)
  activityFile : Option ActivityDoc
  perms : String → Option String

/-- Replace the first element satisfying `p` by its image under `f`,
leaving the rest unchanged. -/
def updateFirst {α : Type} (p : α → Bool) (f : α → α) : List α → List α
  | [] => []
  | x :: xs => if p x then f x :: xs else x :: updateFirst p f xs

/-- The history update of `track_permission_changes`: walk `reversed(history)`
and update the first entry whose `id` equals `log_id` with the observed
`after_perms` and the detected changes. -/
def updateTracked (log_id : Int) (ap : List (String × String))
    (chg : List ChangeRec) (history : List ChmodEntry) : List ChmodEntry :=
  (updateFirst (fun e => e.id == log_id)
    (fun e => { e with afterPerms := some ap, changes := some chg })
    history.reverse).reverse

/-- `update_last_activity` of `permission_tracker.py`: write
`last_activity.json` (the write may raise, modelled by `fault`). -/
def update_last_activity (fault : String → Bool) (now : Int) (w : TrackerWorld) :
    Except String TrackerWorld :=
  if fault "last_activity.json" then Except.error "OSError"
  else Except.ok { w with activityFile := some ⟨now, "chmod_executed", "DNSweeper"⟩ }

/-- The `try` block of `track_permission_changes` once the temp file has been
parsed: collect the paths whose permissions changed, and if there are any and
the chmod history file exists, rewrite the matching history entry; finally
remove the temp file.  A read or write error on the history file (or an
unparsable history) raises inside the `try` and is caught by the function's
own `except`, in which case the temp file is left in place. -/
def track_try (fault : String → Bool) (w : TrackerWorld) (temp : TempData) :
    TrackerWorld :=
  let after_perms := temp.paths_info.filterMap
    (fun pr => (w.perms pr.1).map (fun a => (pr.1, a)))
  let changes := temp.paths_info.filterMap (fun pr =>
    match w.perms pr.1 with
    | none => none
    | some aft =>
      if pr.2.before_octal ≠ aft then
        some { path := pr.1, before := pr.2.before_octal, after := aft,
               recommended := pr.2.recommended, category := pr.2.category }
      else none)
  if changes = [] then { w with tempFile := FState.missing }
  else match w.chmodLog with
    | FState.missing => { w with tempFile := FState.missing }
    | FState.malformed => w
    | FState.parsed history =>
      if fault "chmod_history.json" then w
      else { w with
        chmodLog := FState.parsed (updateTracked temp.log_id after_perms changes history),
        tempFile := FState.missing }

/-- `track_permission_changes` of `permission_tracker.py`: nothing happens
when the temp file is missing (the early `return` also skips
`update_last_activity`); otherwise the `try` block runs with its own
`except` (an unparsable temp file is swallowed there), and
`update_last_activity` runs afterwards and may raise. -/
def track_permission_changes (fault : String → Bool) (now : Int)
    (w : TrackerWorld) : Except String TrackerWorld :=
  match w.tempFile with
  | FState.missing => Except.ok w
  | FState.malformed => update_last_activity fault now w
  | FState.parsed temp => update_last_activity fault now (track_try fault w temp)

/-- `main` of `permission_tracker.py`: `track_permission_changes` runs inside
`try`; `except Exception: pass` makes every run exit normally with code 0. -/
def tracker_main (fault : String → Bool) (now : Int) (w : TrackerWorld) :
    MainResult :=
  match track_permission_changes fault now w with
  | Except.ok _ => MainResult.exited 0
  | Except.error _ => MainResult.exited 0

end PermissionTracker

namespace SecurityMonitor

open ChmodGuardian

/-- One warning record produced by `analyze_security_status`. -/
structure Warning where
  path : String
  permission : String
  timestamp : Int
  severity : String
  reason : Option String := none
deriving DecidableEq

/-- The status document `analyze_security_status` returns.  The Python
function returns plain dicts whose key sets differ per branch; the fields
below cover their union, with `category_stats = []` also standing for the
empty `summary` dict of the `no_data` branch and `last_check = none` for the
key being absent. -/
structure SecurityStatus where
  status : String
  pending_restorations : Nat := 0
  recent_changes : Nat := 0
  warnings : List Warning := []
  category_stats : List (String × Nat) := []
  last_check : Option Int := none
deriving DecidableEq

/-- `defaultdict(int)` bump: increment the count of `k`, first occurrences
appended at the end (Python dicts iterate in insertion order). -/
def bump (k : String) : List (String × Nat) → List (String × Nat)
  | [] => [(k, 1)]
  | (k', n) :: rest => if k' = k then (k', n + 1) :: rest else (k', n) :: bump k rest

/-- Stable insertion used to model Python's
`sorted(risky_permissions, key=lambda x: x['timestamp'], reverse=True)`:
an element is placed before the first earlier-inserted element with a
strictly smaller timestamp. -/
def insertDesc (x : Warning) : List Warning → List Warning
  | [] => [x]
  | y :: ys => if x.timestamp < y.timestamp then y :: insertDesc x ys else x :: y :: ys

/-- Stable sort of warnings by timestamp, descending. -/
def sortWarnDesc (l : List Warning) : List Warning := l.foldr insertDesc []

/-- The risky-permission check of `analyze_security_status` for one path of
one entry.  Python evaluates `int(after_octal)` only when `'.env' in path`
and the earlier branches did not fire; `int` of a non-numeric string (for
example the `''` default when the path is absent from `after_perms`) raises a
`ValueError`, which `analyze_security_status` does not catch. -/
def riskCheck (e : ChmodEntry) (path : String) (category : String) :
    Except String (Option Warning) :=
  match e.afterPerms with
  | none => Except.ok none
  | some m =>
    let after_octal := (m.lookup path).getD ""
    let warn : String → Option String → Warning := fun sev rsn =>
      { path := path, permission := after_octal, timestamp := e.timestamp,
        severity := sev, reason := rsn }
    if after_octal = "777" ∨ after_octal = "666" then
      Except.ok (some (warn "critical" none))
    else if after_octal = "755" ∧ category = "source_code" then
      Except.ok (some (warn "medium" (some "ソースコードに実行権限")))
    else if strContains path ".env" then
      match after_octal.toNat? with
      | none => Except.error "ValueError"
      | some v =>
        if 400 < v then
          Except.ok (some (warn "high" (some "環境変数ファイルの権限が緩い")))
        else Except.ok none
    else Except.ok none

/-- Accumulator of the analysis loop. -/
structure AnaAcc where
  pending : Nat
  recent : Nat
  stats : List (String × Nat)
  risky : List Warning
deriving DecidableEq

/-- The loop body of `analyze_security_status` for one DNSweeper entry:
restored entries are skipped; entries younger than 24 hours count as recent
and pending; every path bumps its category count and may add a risky-permission
record. -/
def analyze_entry (now : Int) (acc : AnaAcc) (e : ChmodEntry) :
    Except String AnaAcc :=
  if e.restored then Except.ok acc
  else
    let acc1 := if now - e.timestamp < 86400 then
        { acc with recent := acc.recent + 1, pending := acc.pending + 1 }
      else acc
    e.paths.foldlM (fun a pr => do
      let category := if pr.2.category = "" then "other" else pr.2.category
      let a1 := { a with stats := bump category a.stats }
      match ← riskCheck e pr.1 category with
      | some wRec => pure { a1 with risky := a1.risky ++ [wRec] }
      | none => pure a1) acc1

/-- `analyze_security_status` of `security_monitor.py`: the `no_data` document
when the history file does not exist, the `error` document when `json.load`
raises, and otherwise the aggregation over the DNSweeper entries (warnings are
the five most recent risky permissions).  The `ValueError` of `riskCheck`
propagates, hence the `Except`. -/
def analyze_security_status (logFile : FState (List ChmodEntry)) (now : Int) :
    Except String SecurityStatus :=
  match logFile with
  | FState.missing =>
    let noData : SecurityStatus :=
      { status := "no_data", pending_restorations := 0, recent_changes := 0,
        warnings := [], category_stats := [], last_check := none }
    Except.ok noData
  | FState.malformed => Except.ok { status := "error" }
  | FState.parsed history => do
    let dns := history.filter (fun e => e.project == "DNSweeper")
    let acc ← dns.foldlM (analyze_entry now) ⟨0, 0, [], []⟩
    let act : SecurityStatus :=
      { status := "active", pending_restorations := acc.pending,
        recent_changes := acc.recent,
        warnings := (sortWarnDesc acc.risky).take 5,
        category_stats := acc.stats, last_check := some now }
    Except.ok act

end SecurityMonitor

namespace ChmodRestorer

open ChmodGuardian

/-- `load_policy` of `chmod_restorer.py`: its bare `except` swallows both the
missing-file and parse errors, yielding `None`. -/
def load_policy (policyFile : FState Policy) : Option Policy :=
  match policyFile with
  | FState.parsed p => some p
  | _ => none

/-- One action of a restore-history record. -/
structure RestoreAction where
  path : String
  from_octal : String
  to_octal : String
  category : String
  timestamp : Int
deriving DecidableEq

/-- One record of the restore history (`restore_history.json`). -/
structure RestoreRecord where
  timestamp : Int
  project : String
  restored_count : Nat
  actions : List RestoreAction
deriving DecidableEq

/-- Python `int(s, 8)` restricted to plain octal digit strings; `none` models
the `ValueError` raised otherwise (caught by the loop's `except`). -/
def octVal? (s : String) : Option Nat :=
  if s.data ≠ [] ∧ s.data.all (fun c => decide ('0' ≤ c ∧ c ≤ '7')) then
    some (s.data.foldl (fun a c => a * 8 + (c.toNat - 48)) 0)
  else none

/-- Canonical octal rendering of a mode, as `get_current_permissions` would
report it after `os.chmod` (`oct(mode)[2:]`). -/
def octString (m : Nat) : String := String.mk (Nat.toDigits 8 m)

/-- The category filter at the head of the restore loop body:
`if category and info.get('category') != category: continue`. -/
def catSkip (catFilter : Option String) (info : PathInfo) : Bool :=
  match catFilter with
  | some cf => info.category != cf
  | none => false

/-- Running accumulator of `restore_permissions`: the counters and lists of
the Python function, the `os.chmod` calls performed so far, and the evolving
filesystem view (`perms` backs both `os.path.exists` and
`get_current_permissions`, so a restore is visible to later iterations). -/
structure RAcc where
  restoredCount : Nat
  skippedCount : Nat
  actions : List RestoreAction
  calls : List (String × Nat)
  perms : String → Option String

/-- The inner loop body of `restore_permissions` for one `(path, info)` pair.
Returns the updated accumulator and whether this path was restored (which
sets the entry's `restored` flag).  `recommendFor path` stands for
`get_recommended_permission(path, policy)` of `chmod_guardian.py`, an
environment query (it consults the policy document and the filesystem);
its value is irrelevant to every claim settled here.  `os.chmod` itself is
assumed not to raise; `int(recommended, 8)` raising `ValueError` is the
`octVal? = none` case, caught by the loop's `except` as a skip. -/
def processPath (dry_run : Bool) (recommendFor : String → String) (now : Int)
    (catFilter : Option String) (acc : RAcc) (pr : String × PathInfo) :
    RAcc × Bool :=
  if catSkip catFilter pr.2 then (acc, false)
  else match acc.perms pr.1 with
    | none => ({ acc with skippedCount := acc.skippedCount + 1 }, false)
    | some cur =>
      let recommended := if pr.2.recommended = "" then recommendFor pr.1
        else pr.2.recommended
      if cur ≠ recommended then
        if dry_run then (acc, false)
        else match octVal? recommended with
          | none => ({ acc with skippedCount := acc.skippedCount + 1 }, false)
          | some m =>
            let act : RestoreAction :=
              { path := pr.1, from_octal := cur, to_octal := recommended,
                category := pr.2.category, timestamp := now }
            let acc1 : RAcc :=
              { restoredCount := acc.restoredCount + 1,
                skippedCount := acc.skippedCount,
                actions := acc.actions ++ [act],
                calls := acc.calls ++ [(pr.1, m)],
                perms := fun p => if p = pr.1 then some (octString m) else acc.perms p }
            (acc1, true)
      else (acc, false)

/-- The outer loop body of `restore_permissions` for one history entry:
non-DNSweeper entries are not in `dnsweeper_entries`; already-restored
entries are skipped unless `force`; entries older than `hours` hours are
skipped unless `force`; otherwise every path is processed and a successful
restore marks the entry `restored`. -/
def processEntry (force dry_run : Bool) (catFilter : Option String)
    (recommendFor : String → String) (hours : Nat) (now : Int)
    (acc : RAcc) (e : ChmodEntry) : RAcc × ChmodEntry :=
  if e.project ≠ "DNSweeper" then (acc, e)
  else if e.restored ∧ force = false then (acc, e)
  else if force = false ∧ (hours : Int) * 3600 < now - e.timestamp then (acc, e)
  else
    let r := e.paths.foldl
      (fun (st : RAcc × Bool) pr =>
        let q := processPath dry_run recommendFor now catFilter st.1 pr
        (q.1, st.2 || q.2)) (acc, false)
    (r.1, if r.2 then { e with restored := true } else e)

/-- The restore-history write at the end of `restore_permissions`: the current
restore history (`[]` when missing or unparsable), with the summary record
appended, truncated to the most recent 50 records
(`restore_history[-50:]`). -/
def writeRestoreLog (cur : FState (List RestoreRecord)) (rec1 : RestoreRecord) :
    List RestoreRecord :=
  let old := match cur with
    | FState.parsed h => h
    | _ => []
  pyTail 50 (old ++ [rec1])

/-- The files and filesystem view `chmod_restorer.py` works with. -/
structure RestoreWorld where
  chmodLog : FState (List ChmodEntry)
  restoreLog : FState (List RestoreRecord)
  policyFile : FState Policy
  perms : String → Option String

/-- `restore_permissions` of `chmod_restorer.py`.  Returns the final world
and the list of `os.chmod` calls performed.  Early returns: missing history
file, unreadable history, and absent policy.  After the loops, both log files
are written only when `not dry_run and restored_count > 0`. -/
def restore_permissions (hours : Nat) (force dry_run : Bool)
    (catFilter : Option String) (recommendFor : String → String) (now : Int)
    (w : RestoreWorld) : RestoreWorld × List (String × Nat) :=
  match w.chmodLog with
  | FState.missing => (w, [])
  | FState.malformed => (w, [])
  | FState.parsed history =>
    match load_policy w.policyFile with
    | none => (w, [])
    | some _ =>
      let init : RAcc := ⟨0, 0, [], [], w.perms⟩
      let r := history.foldl
        (fun (st : RAcc × List ChmodEntry) e =>
          let q := processEntry force dry_run catFilter recommendFor hours now st.1 e
          (q.1, st.2 ++ [q.2])) (init, [])
      if dry_run = false ∧ 0 < r.1.restoredCount then
        let sumRec : RestoreRecord :=
          ⟨now, "DNSweeper", r.1.restoredCount, r.1.actions⟩
        let w1 : RestoreWorld :=
          { chmodLog := FState.parsed r.2,
            restoreLog := FState.parsed (writeRestoreLog w.restoreLog sumRec),
            policyFile := w.policyFile,
            perms := r.1.perms }
        (w1, r.1.calls)
      else ({ w with perms := r.1.perms }, r.1.calls)

end ChmodRestorer

namespace Evolution

/-- Modelled from the spec: the autonomous-evolution core (Persistent Store,
Fitness Evaluator, Priority Learner, …) has no source file in this
repository; the data model of §3 gives an outcome record
`{generation ≥ 0, task_type from a closed enumeration of 8 task kinds,
success, duration ≥ 0 seconds, …}`.  The closed task-kind enumeration is
modelled as `Fin 8`; the duration as an exact rational (its nonnegativity is
carried as a hypothesis where needed). -/
structure Outcome where
  generation : Nat
  task_type : Fin 8
  success : Bool
  duration : ℚ
deriving DecidableEq

/-- Modelled from the spec (§4.2): the Fitness Evaluator's input window, "the
most recent W outcome records (W=20)". -/
def recent_window (history : List Outcome) : List Outcome := pyTail 20 history

/-- Fraction of the window's records that succeeded. -/
def success_rate (w : List Outcome) : ℚ := ((w.filter (fun r => r.success)).length : ℚ) / (w.length : ℚ)

/-- Average duration over the window. -/
def avg_duration (w : List Outcome) : ℚ := (w.map (fun r => r.duration)).sum / (w.length : ℚ)

/-- `max(0, (300 − avg_duration) / 300)`. -/
def time_efficiency (w : List Outcome) : ℚ := max 0 ((300 - avg_duration w) / 300)

/-- `distinct_task_types_seen / total_task_type_kinds` with 8 total kinds. -/
def diversity (w : List Outcome) : ℚ := ((w.map (fun r => r.task_type)).dedup.length : ℚ) / 8

/-- Modelled from the spec (§4.2, the Fitness Evaluator, absent from src/):
`fitness = 0.5·success_rate + 0.3·time_efficiency + 0.2·diversity` over the
most recent 20 outcome records, and exactly `0.5` for an empty history. -/
def evaluate_fitness (history : List Outcome) : ℚ :=
  let w := recent_window history
  if w = [] then 1/2
  else (1/2) * success_rate w + (3/10) * time_efficiency w + (1/5) * diversity w

/-- Modelled from the spec (§4.3, the Priority Learner, absent from src/):
`adjusted_priority = min(1.0, base_priority · (0.5 + success_rate))` where the
historical success rate is `none` when the store has no data for the task
type, in which case the base priority is returned unchanged. -/
def adjusted_priority (base : ℚ) (sr : Option ℚ) : ℚ :=
  match sr with
  | none => base
  | some s => min 1 (base * (1/2 + s))

end Evolution

set_option maxRecDepth 4000

/-! ## Helper lemmas about the truncating tail -/

/-- Truncating to the most recent `n` elements twice is the same as doing it
once. -/
theorem pyTail_idem {α : Type} (n : Nat) (l : List α) :
    pyTail n (pyTail n l) = pyTail n l := by
  unfold pyTail
  rw [List.length_drop]
  have h0 : l.length - (l.length - n) - n = 0 := by omega
  rw [h0, List.drop_zero]

/-- A list already within the bound is left unchanged by the truncation. -/
theorem pyTail_eq_of_length_le {α : Type} {n : Nat} {l : List α}
    (h : l.length ≤ n) : pyTail n l = l := by
  unfold pyTail
  have h0 : l.length - n = 0 := by omega
  rw [h0, List.drop_zero]

/-- Appending one element and keeping the most recent `n+1` preserves every
element that was among the most recent `n`. -/
theorem mem_pyTail_append {α : Type} (l : List α) (x a : α) (n : Nat)
    (h : a ∈ pyTail n l) : a ∈ pyTail (n + 1) (l ++ [x]) := by
  unfold pyTail at *
  have hlen : (l ++ [x]).length = l.length + 1 := by simp
  rw [hlen]
  have hk : l.length + 1 - (n + 1) = l.length - n := by omega
  rw [hk, List.drop_append_eq_append_drop]
  exact List.mem_append_left _ h

/-! ## Sample data used by concrete counterexamples and witnesses -/

/-- A minimal well formed chmod history entry with a given id. -/
def mkEntry (i : Nat) : ChmodGuardian.ChmodEntry :=
  { id := (i : Int), timestamp := 0, command := "chmod 777 src",
    project := "DNSweeper" }

/-- A chmod history already holding 200 records. -/
def sampleHistory : List ChmodGuardian.ChmodEntry := (List.range 200).map mkEntry

/-! ## C1 -/

/-- C1 counterexample: the persisted chmod history is not append-only.  With
the history file holding 200 records, `log_chmod_action` truncates to
`history[-200:]` after appending, so the oldest record — present before the
write — is absent from the content written back. -/
theorem c1_truncation_drops_oldest :
    mkEntry 0 ∈ sampleHistory ∧
    mkEntry 0 ∉ ChmodGuardian.log_chmod_action (FState.parsed sampleHistory) (mkEntry 200) := by
  decide

/-- C1 (amended): writes to the persisted histories preserve every
sufficiently recent record — any record among the 199 most recent of the
chmod history is still present after `log_chmod_action` (which truncates the
file to its most recent 200 entries, deleting older records), and any record
among the 49 most recent of the restore history is still present after the
restore-history write of `restore_permissions` (which truncates to 50). -/
theorem c1_recent_records_survive :
    (∀ (h : List ChmodGuardian.ChmodEntry) (e r : ChmodGuardian.ChmodEntry),
      r ∈ pyTail 199 h → r ∈ ChmodGuardian.log_chmod_action (FState.parsed h) e) ∧
    (∀ (h : List ChmodRestorer.RestoreRecord) (rec1 r : ChmodRestorer.RestoreRecord),
      r ∈ pyTail 49 h → r ∈ ChmodRestorer.writeRestoreLog (FState.parsed h) rec1) := by
  constructor
  · intro h e r hr
    exact mem_pyTail_append h e r 199 hr
  · intro h rec1 r hr
    exact mem_pyTail_append h rec1 r 49 hr

/-- Witness for C1: a concrete record within the bound survives a concrete
subsequent write. -/
theorem c1_recent_records_survive_witness :
    mkEntry 0 ∈ ChmodGuardian.log_chmod_action (FState.parsed [mkEntry 0]) (mkEntry 1) :=
  c1_recent_records_survive.1 [mkEntry 0] (mkEntry 1) (mkEntry 0) (by decide)

/-! ## C2 -/

/-- C2 counterexample: `chmod_guardian.load_policy` catches only
`FileNotFoundError`; on a policy file whose content `json.load` cannot parse
it does not return the default policy — it propagates the decode error. -/
theorem c2_load_policy_propagates :
    ChmodGuardian.load_policy FState.malformed ≠ Except.ok ChmodGuardian.get_default_policy ∧
    ChmodGuardian.load_policy FState.malformed = Except.error "JSONDecodeError" :=
  ⟨fun h => Except.noConfusion h, rfl⟩

/-- C2 (amended): on malformed or missing persisted state, `load_config`
falls back to the default alternative-command mapping and `get_pending_tasks`
returns the empty list, without propagating; `load_policy` falls back to the
default policy only when its file is missing, and propagates the JSON decode
error when the file content is malformed. -/
theorem c2_loaders_default_on_malformed
    (secFile : FState ApprovalAvoider.SecurityConfig) (envMode : Option String) :
    (ApprovalAvoider.load_config FState.missing secFile envMode).alternatives
        = ApprovalAvoider.DEFAULT_ALTERNATIVES ∧
    (ApprovalAvoider.load_config FState.malformed secFile envMode).alternatives
        = ApprovalAvoider.DEFAULT_ALTERNATIVES ∧
    TaskSwitcher.get_pending_tasks FState.missing = [] ∧
    TaskSwitcher.get_pending_tasks FState.malformed = [] ∧
    ChmodGuardian.load_policy FState.missing = Except.ok ChmodGuardian.get_default_policy ∧
    ChmodGuardian.load_policy FState.malformed = Except.error "JSONDecodeError" :=
  ⟨rfl, rfl, rfl, rfl, rfl, rfl⟩

/-! ## C3 -/

/-- C3: read queries tolerate an absent store — with no chmod history file,
`analyze_security_status` returns the `no_data` status with zero pending
restorations, zero recent changes and no warnings, and with no approval queue
file, `get_pending_tasks` returns the empty list. -/
theorem c3_empty_store_reads (now : Int) :
    SecurityMonitor.analyze_security_status FState.missing now =
      Except.ok { status := "no_data", pending_restorations := 0,
                  recent_changes := 0, warnings := [], category_stats := [],
                  last_check := none } ∧
    TaskSwitcher.get_pending_tasks FState.missing = [] :=
  ⟨rfl, rfl⟩

/-! ## C7 -/

/-- C7: the history truncation of `log_chmod_action` (`history[-200:]`) is
idempotent — truncating twice equals truncating once — and a history already
within the 200-entry bound is left unchanged. -/
theorem c7_truncate_idempotent (l : List ChmodGuardian.ChmodEntry) :
    pyTail 200 (pyTail 200 l) = pyTail 200 l ∧
    (l.length ≤ 200 → pyTail 200 l = l) :=
  ⟨pyTail_idem 200 l, fun h => pyTail_eq_of_length_le h⟩

/-- Witness for C7 at a concrete one-entry history. -/
theorem c7_truncate_idempotent_witness :
    pyTail 200 (pyTail 200 [mkEntry 2]) = pyTail 200 [mkEntry 2] ∧
    pyTail 200 [mkEntry 2] = [mkEntry 2] :=
  ⟨(c7_truncate_idempotent [mkEntry 2]).1,
   (c7_truncate_idempotent [mkEntry 2]).2 (by decide)⟩

/-! ## C8 -/

/-- C8: `add_to_queue` preserves duplicate-freedom of pending commands — it
appends its fresh `pending` item only when no existing item has the same
command string with status `pending`, so a queue with pairwise-distinct
pending commands keeps that property. -/
theorem c8_pending_commands_unique (queue : List ApprovalAvoider.QueueItem)
    (command : String) (context : List (String × String)) (nowId nowIso : Int)
    (h : ApprovalAvoider.PendingUnique queue) :
    ApprovalAvoider.PendingUnique
      (ApprovalAvoider.add_to_queue (FState.parsed queue) command context nowId nowIso) := by
  unfold ApprovalAvoider.add_to_queue
  by_cases hany : queue.any (fun q => q.command == command && q.status == "pending") = true
  · simpa [hany] using h
  · rw [if_neg (by simpa using hany)]
    unfold ApprovalAvoider.PendingUnique at h ⊢
    rw [List.pairwise_append]
    refine ⟨h, List.pairwise_singleton _ _, ?_⟩
    intro a ha b hb
    rw [List.mem_singleton] at hb
    subst hb
    rintro ⟨hpa, _, hcmd⟩
    apply hany
    rw [List.any_eq_true]
    refine ⟨a, ha, ?_⟩
    simp only [Bool.and_eq_true, beq_iff_eq]
    exact ⟨hcmd, hpa⟩

/-- Witness for C8 at the empty queue. -/
theorem c8_pending_commands_unique_witness :
    ApprovalAvoider.PendingUnique
      (ApprovalAvoider.add_to_queue (FState.parsed []) "npm install" [] 0 0) :=
  c8_pending_commands_unique [] "npm install" [] 0 0 List.Pairwise.nil

/-! ## C4 -/

/-- C4: no error while processing a single hook invocation terminates the
process abnormally — for every hook input (including an unparsable stdin
payload, the `Except.error` case of `stdin`) and every write fault raised
during processing, the `main` entry points of `dza_intelligent_monitor.py`,
`detect_frozen.py` and `permission_tracker.py` catch the exception and exit
normally with code 0. -/
theorem c4_hook_mains_return_normally :
    (∀ (fault : String → Bool) (now : Int) (hour : Nat)
        (stdin : Except String DzaMonitor.MonitorInput) (w : DzaMonitor.MonitorWorld),
      DzaMonitor.dza_monitor_main fault now hour stdin w = MainResult.exited 0) ∧
    (∀ (fault : String → Bool) (now : Int)
        (stdin : Except String DetectFrozen.FrozenInput) (w : DetectFrozen.FrozenWorld),
      DetectFrozen.detect_frozen_main fault now stdin w = MainResult.exited 0) ∧
    (∀ (fault : String → Bool) (now : Int) (w : PermissionTracker.TrackerWorld),
      PermissionTracker.tracker_main fault now w = MainResult.exited 0) := by
  refine ⟨?_, ?_, ?_⟩
  · intro fault now hour stdin w
    unfold DzaMonitor.dza_monitor_main
    split <;> rfl
  · intro fault now stdin w
    unfold DetectFrozen.detect_frozen_main
    split <;> rfl
  · intro fault now w
    unfold PermissionTracker.tracker_main
    split <;> rfl

/-! ## C9 -/

/-- A list with no duplicates has at least two elements satisfying a
decidable predicate exactly when its count under that predicate is at least
two. -/
theorem two_le_countP_iff {α : Type} [DecidableEq α] {l : List α} {f : α → Bool}
    (hl : l.Nodup) :
    2 ≤ l.countP f ↔ ∃ p q, p ∈ l ∧ q ∈ l ∧ p ≠ q ∧ f p = true ∧ f q = true := by
  rw [List.countP_eq_length_filter]
  constructor
  · intro h
    match hf : l.filter f with
    | [] => rw [hf] at h; simp at h
    | [a] => rw [hf] at h; simp at h
    | a :: b :: t =>
      have hmem_a : a ∈ l.filter f := by rw [hf]; exact List.mem_cons_self a (b :: t)
      have hmem_b : b ∈ l.filter f := by rw [hf]; exact List.mem_cons_of_mem a (List.mem_cons_self b t)
      have hnd : (l.filter f).Nodup := hl.filter f
      rw [hf] at hnd
      have hab : a ≠ b := by
        rcases List.nodup_cons.1 hnd with ⟨hna, _⟩
        intro he
        exact hna (he ▸ List.mem_cons_self b t)
      obtain ⟨hal, hfa⟩ := List.mem_filter.1 hmem_a
      obtain ⟨hbl, hfb⟩ := List.mem_filter.1 hmem_b
      exact ⟨a, b, hal, hbl, hab, hfa, hfb⟩
  · rintro ⟨p, q, hp, hq, hne, hfp, hfq⟩
    have hp' : p ∈ l.filter f := List.mem_filter.2 ⟨hp, hfp⟩
    have hq' : q ∈ l.filter f := List.mem_filter.2 ⟨hq, hfq⟩
    match hf : l.filter f with
    | [] => rw [hf] at hp'; simp at hp'
    | [a] =>
      rw [hf] at hp' hq'
      rw [List.mem_singleton] at hp' hq'
      exact absurd (hp'.trans hq'.symm) hne
    | a :: b :: t =>
      simp only [List.length_cons]
      omega

/-- C9: `detect_approval_prompt` returns `True` exactly when at least two
distinct patterns of the fixed catalogue occur, case-insensitively as
substrings, in the output, and it returns `False` for `None` or empty
output. -/
theorem c9_detect_approval_prompt_iff (out : Option String) :
    DetectFrozen.detect_approval_prompt out = true ↔
      ∃ s, out = some s ∧ s ≠ "" ∧
        ∃ p q, p ∈ DetectFrozen.APPROVAL_PATTERNS ∧ q ∈ DetectFrozen.APPROVAL_PATTERNS ∧
          p ≠ q ∧ occursIn p s = true ∧ occursIn q s = true := by
  cases out with
  | none => simp [DetectFrozen.detect_approval_prompt]
  | some s =>
    by_cases hs : s = ""
    · subst hs
      simp [DetectFrozen.detect_approval_prompt]
    · simp only [DetectFrozen.detect_approval_prompt, if_neg hs, decide_eq_true_eq]
      rw [two_le_countP_iff (by decide)]
      constructor
      · rintro ⟨p, q, hp, hq, hne, h1, h2⟩
        exact ⟨s, rfl, hs, p, q, hp, hq, hne, h1, h2⟩
      · rintro ⟨s', hss, _, p, q, hp, hq, hne, h1, h2⟩
        cases hss
        exact ⟨p, q, hp, hq, hne, h1, h2⟩

/-! ## C5 -/

/-- The success rate of a nonempty window lies in `[0,1]`. -/
theorem evo_success_rate_bounds (w : List Evolution.Outcome) (hne : w ≠ []) :
    0 ≤ Evolution.success_rate w ∧ Evolution.success_rate w ≤ 1 := by
  have hpos : (0 : ℚ) < (w.length : ℚ) := by
    exact_mod_cast List.length_pos.2 hne
  constructor
  · exact div_nonneg (by positivity) hpos.le
  · rw [Evolution.success_rate, div_le_one hpos]
    exact_mod_cast List.length_filter_le _ w

/-- The time efficiency of a nonempty window with nonnegative durations lies
in `[0,1]`. -/
theorem evo_time_efficiency_bounds (w : List Evolution.Outcome) (hne : w ≠ [])
    (hd : ∀ r ∈ w, 0 ≤ r.duration) :
    0 ≤ Evolution.time_efficiency w ∧ Evolution.time_efficiency w ≤ 1 := by
  have hpos : (0 : ℚ) < (w.length : ℚ) := by
    exact_mod_cast List.length_pos.2 hne
  have havg : 0 ≤ Evolution.avg_duration w := by
    apply div_nonneg _ hpos.le
    apply List.sum_nonneg
    intro x hx
    obtain ⟨r, hr, rfl⟩ := List.mem_map.1 hx
    exact hd r hr
  constructor
  · exact le_max_left 0 _
  · apply max_le (by norm_num)
    rw [div_le_one (by norm_num : (0:ℚ) < 300)]
    linarith

/-- The diversity of a window lies in `[0,1]`: at most 8 distinct task kinds
exist. -/
theorem evo_diversity_bounds (w : List Evolution.Outcome) :
    0 ≤ Evolution.diversity w ∧ Evolution.diversity w ≤ 1 := by
  constructor
  · exact div_nonneg (by positivity) (by norm_num)
  · rw [Evolution.diversity, div_le_one (by norm_num : (0:ℚ) < 8)]
    have h := List.Nodup.length_le_card (List.nodup_dedup (w.map (fun r => r.task_type)))
    have h8 : Fintype.card (Fin 8) = 8 := by simp
    rw [h8] at h
    exact_mod_cast h

/-- C5: for every outcome history whose durations are nonnegative (as the
data model requires), the fitness value lies in `[0,1]`, and on the empty
history it equals exactly `1/2`. -/
theorem c5_fitness_bounded (history : List Evolution.Outcome)
    (hd : ∀ r ∈ history, 0 ≤ r.duration) :
    (0 ≤ Evolution.evaluate_fitness history ∧ Evolution.evaluate_fitness history ≤ 1) ∧
    Evolution.evaluate_fitness [] = 1/2 := by
  refine ⟨?_, rfl⟩
  have hval : Evolution.evaluate_fitness history =
      (if Evolution.recent_window history = [] then (1:ℚ)/2
       else (1/2) * Evolution.success_rate (Evolution.recent_window history)
          + (3/10) * Evolution.time_efficiency (Evolution.recent_window history)
          + (1/5) * Evolution.diversity (Evolution.recent_window history)) := rfl
  rw [hval]
  by_cases hempty : Evolution.recent_window history = []
  · rw [if_pos hempty]
    norm_num
  · rw [if_neg hempty]
    have hdw : ∀ r ∈ Evolution.recent_window history, 0 ≤ r.duration := by
      intro r hr
      exact hd r (List.drop_subset _ _ hr)
    obtain ⟨hs0, hs1⟩ := evo_success_rate_bounds _ hempty
    obtain ⟨ht0, ht1⟩ := evo_time_efficiency_bounds _ hempty hdw
    obtain ⟨hv0, hv1⟩ := evo_diversity_bounds (Evolution.recent_window history)
    constructor
    · positivity
    · linarith

/-- Witness for C5 at a concrete one-record history. -/
theorem c5_fitness_bounded_witness :
    0 ≤ Evolution.evaluate_fitness [{ generation := 0, task_type := 0, success := true, duration := 100 }] ∧
    Evolution.evaluate_fitness [{ generation := 0, task_type := 0, success := true, duration := 100 }] ≤ 1 :=
  (c5_fitness_bounded [{ generation := 0, task_type := 0, success := true, duration := 100 }]
    (by intro r hr; rw [List.mem_singleton] at hr; subst hr; norm_num)).1

/-! ## C6 -/

/-- C6: for fixed base priority in `[0,1]`, the adjusted priority is monotone
in the historical success rate, never exceeds `1`, and equals the base
priority exactly when no success rate is recorded. -/
theorem c6_adjusted_priority_props (base s1 s2 : ℚ)
    (hb0 : 0 ≤ base) (hb1 : base ≤ 1) (hs : s1 ≤ s2) :
    Evolution.adjusted_priority base (some s1) ≤ Evolution.adjusted_priority base (some s2) ∧
    (∀ sr : Option ℚ, Evolution.adjusted_priority base sr ≤ 1) ∧
    Evolution.adjusted_priority base none = base := by
  refine ⟨?_, ?_, rfl⟩
  · apply min_le_min le_rfl
    apply mul_le_mul_of_nonneg_left _ hb0
    linarith
  · intro sr
    cases sr with
    | none => exact hb1
    | some s => exact min_le_left 1 _

/-- Witness for C6 at the spec's own scenario (`base = 0.9`). -/
theorem c6_adjusted_priority_props_witness :
    Evolution.adjusted_priority (9/10) (some 0) ≤ Evolution.adjusted_priority (9/10) (some 1) ∧
    Evolution.adjusted_priority (9/10) none = 9/10 := by
  obtain ⟨h1, _, h3⟩ := c6_adjusted_priority_props (9/10) 0 1
    (by norm_num) (by norm_num) (by norm_num)
  exact ⟨h1, h3⟩

/-! ## C10 -/

/-- Under `dry_run`, the restore loop's inner body at most bumps the skip
counter: no `os.chmod` call, no action record, no restore count, no
filesystem change, and the path is never reported restored. -/
theorem processPath_dry (recommendFor : String → String) (now : Int)
    (catFilter : Option String) (acc : ChmodRestorer.RAcc)
    (pr : String × ChmodGuardian.PathInfo) :
    ∃ k, ChmodRestorer.processPath true recommendFor now catFilter acc pr
        = ({ acc with skippedCount := k }, false) := by
  unfold ChmodRestorer.processPath
  by_cases h1 : ChmodRestorer.catSkip catFilter pr.2 = true
  · rw [if_pos h1]
    exact ⟨acc.skippedCount, rfl⟩
  · rw [if_neg h1]
    cases hp : acc.perms pr.1 with
    | none => exact ⟨acc.skippedCount + 1, rfl⟩
    | some cur =>
      by_cases h2 : cur ≠ (if pr.2.recommended = "" then recommendFor pr.1 else pr.2.recommended)
      · simp only [if_pos h2, if_pos rfl]
        exact ⟨acc.skippedCount, rfl⟩
      · simp only [if_neg h2]
        exact ⟨acc.skippedCount, rfl⟩

/-- Under `dry_run`, folding the inner loop over all paths of an entry leaves
everything but the skip counter unchanged and reports no restore. -/
theorem pathsFold_dry (recommendFor : String → String) (now : Int)
    (catFilter : Option String) (ps : List (String × ChmodGuardian.PathInfo)) :
    ∀ acc : ChmodRestorer.RAcc,
    ∃ k, (List.foldl (fun (st : ChmodRestorer.RAcc × Bool) pr =>
        let q := ChmodRestorer.processPath true recommendFor now catFilter st.1 pr
        (q.1, st.2 || q.2)) (acc, false) ps)
      = ({ acc with skippedCount := k }, false) := by
  induction ps with
  | nil =>
    intro acc
    exact ⟨acc.skippedCount, rfl⟩
  | cons p ps ih =>
    intro acc
    obtain ⟨k1, h1⟩ := processPath_dry recommendFor now catFilter acc p
    rw [List.foldl_cons]
    simp only [h1, Bool.or_false]
    obtain ⟨k2, h2⟩ := ih { acc with skippedCount := k1 }
    rw [h2]
    exact ⟨k2, rfl⟩

/-- Under `dry_run`, processing one history entry leaves the entry unchanged
(its `restored` flag is never set) and at most bumps the skip counter. -/
theorem processEntry_dry (force : Bool) (catFilter : Option String)
    (recommendFor : String → String) (hours : Nat) (now : Int)
    (acc : ChmodRestorer.RAcc) (e : ChmodGuardian.ChmodEntry) :
    ∃ k, ChmodRestorer.processEntry force true catFilter recommendFor hours now acc e
        = ({ acc with skippedCount := k }, e) := by
  unfold ChmodRestorer.processEntry
  by_cases g1 : e.project ≠ "DNSweeper"
  · rw [if_pos g1]
    exact ⟨acc.skippedCount, rfl⟩
  · rw [if_neg g1]
    by_cases g2 : e.restored ∧ force = false
    · rw [if_pos g2]
      exact ⟨acc.skippedCount, rfl⟩
    · rw [if_neg g2]
      by_cases g3 : force = false ∧ (hours : Int) * 3600 < now - e.timestamp
      · rw [if_pos g3]
        exact ⟨acc.skippedCount, rfl⟩
      · rw [if_neg g3]
        obtain ⟨k, hk⟩ := pathsFold_dry recommendFor now catFilter e.paths acc
        simp only [hk]
        exact ⟨k, rfl⟩

/-- Under `dry_run`, folding over the whole history changes no entry and at
most bumps the skip counter. -/
theorem histFold_dry (force : Bool) (catFilter : Option String)
    (recommendFor : String → String) (hours : Nat) (now : Int)
    (hs : List ChmodGuardian.ChmodEntry) :
    ∀ (acc : ChmodRestorer.RAcc) (done : List ChmodGuardian.ChmodEntry),
    ∃ k, (List.foldl (fun (st : ChmodRestorer.RAcc × List ChmodGuardian.ChmodEntry) e =>
        let q := ChmodRestorer.processEntry force true catFilter recommendFor hours now st.1 e
        (q.1, st.2 ++ [q.2])) (acc, done) hs)
      = ({ acc with skippedCount := k }, done ++ hs) := by
  induction hs with
  | nil =>
    intro acc done
    exact ⟨acc.skippedCount, by simp⟩
  | cons e hs ih =>
    intro acc done
    obtain ⟨k1, h1⟩ := processEntry_dry force catFilter recommendFor hours now acc e
    rw [List.foldl_cons]
    simp only [h1]
    obtain ⟨k2, h2⟩ := ih { acc with skippedCount := k1 } (done ++ [e])
    rw [h2]
    exact ⟨k2, by simp⟩

/-- C10: `restore_permissions` with `dry_run=True` changes nothing — for
every chmod history, policy, restore history and filesystem state it performs
no `os.chmod` call and writes neither the chmod history file nor the restore
history file, leaving the whole world exactly as it was. -/
theorem c10_dry_run_pure (hours : Nat) (force : Bool) (catFilter : Option String)
    (recommendFor : String → String) (now : Int) (w : ChmodRestorer.RestoreWorld) :
    ChmodRestorer.restore_permissions hours force true catFilter recommendFor now w
      = (w, []) := by
  obtain ⟨clog, rlog, pfile, pm⟩ := w
  unfold ChmodRestorer.restore_permissions
  cases clog with
  | missing => rfl
  | malformed => rfl
  | parsed history =>
    cases hp : ChmodRestorer.load_policy pfile with
    | none => rfl
    | some pol =>
      obtain ⟨k, hk⟩ := histFold_dry force catFilter recommendFor hours now history
        ⟨0, 0, [], [], pm⟩ []
      simp only [hk]
      rfl
